import Mathlib

/-!
Shallow embedding of the FastAPI counter backend in src/backend/main.py.

The Python module holds one piece of mutable state, the module-level
integer `counter` initialised to 0 (line 18), and registers five routes:

  GET  /                   read_root          (lines 20-22)
  GET  /counter            get_counter        (lines 24-27)
  POST /counter/increment  increment_counter  (lines 29-34)
  POST /counter/reset      reset_counter      (lines 36-41)
  POST /shutdown           shutdown           (lines 43-61)

Each handler is embedded as a pure function from the counter state to the
new counter state paired with the HTTP response it returns.  Python
integers are arbitrary precision, so the state is `Int`.  JSON response
bodies are association lists from field names to values, in the order the
Python dict literals list them.  FastAPI returns every such dict with HTTP
status 200, which the embedding records in the `Response` structure.
-/

/-- A JSON value appearing in one of the response bodies of main.py:
every body field is either an integer or a string. -/
inductive JsonVal : Type where
  | int : Int → JsonVal
  | str : String → JsonVal
deriving DecidableEq, Repr

/-- A JSON object body: association list of field names to values,
in the order the Python dict literal lists them. -/
def Body : Type := List (String × JsonVal)

instance : DecidableEq Body := inferInstanceAs (DecidableEq (List (String × JsonVal)))

/-- An HTTP response: status code plus JSON body.  FastAPI sends every
dict returned by a handler in main.py with status 200. -/
structure Response where
  status : Nat
  body : Body
deriving DecidableEq

/-- Look up a field of a JSON object body. -/
def Body.field (b : Body) (k : String) : Option JsonVal :=
  List.lookup k b

/-- The field names of a JSON object body, in order. -/
def Body.keys (b : Body) : List String :=
  b.map Prod.fst

/-- main.py line 18: the module-level counter is initialised to 0. -/
def counter₀ : Int := 0

/-- Decimal digit character for a value below 10, as produced by the
decimal rendering of a Python integer. -/
def digitChar (d : Nat) : Char := Char.ofNat (48 + d)

/-- Decimal digits of a natural number, least significant first
(empty for 0). -/
def toDigitsRev : Nat → List Char
  | 0 => []
  | n + 1 => digitChar ((n + 1) % 10) :: toDigitsRev ((n + 1) / 10)
decreasing_by exact Nat.div_lt_self (Nat.succ_pos n) (by omega)

/-- Decimal rendering of a natural number, most significant digit
first. -/
def renderNat (n : Nat) : List Char :=
  if n = 0 then ['0'] else (toDigitsRev n).reverse

/-- Decimal rendering of a Python integer, as produced by the f-string
interpolation `f"...{counter}"` in main.py line 34: a minus sign for
negative values followed by the decimal digits. -/
def renderInt (i : Int) : String :=
  if i < 0 then String.mk ('-' :: renderNat i.natAbs)
  else String.mk (renderNat i.toNat)

/-- main.py lines 20-22, read_root: GET / returns a fixed message and
does not touch the counter. -/
def read_root (c : Int) : Int × Response :=
  (c, ⟨200, [("message", .str "Python backend is running!")]⟩)

/-- main.py lines 24-27, get_counter: GET /counter returns the current
counter value and does not touch it. -/
def get_counter (c : Int) : Int × Response :=
  (c, ⟨200, [("counter", .int c)]⟩)

/-- main.py lines 29-34, increment_counter: POST /counter/increment sets
`counter += 1` and returns the new value together with the interpolated
message `f"Counter incremented to {counter}"`. -/
def increment_counter (c : Int) : Int × Response :=
  let c := c + 1
  (c, ⟨200, [("counter", .int c),
             ("message", .str ("Counter incremented to " ++ renderInt c))]⟩)

/-- main.py lines 36-41, reset_counter: POST /counter/reset sets
`counter = 0` and returns the new value with a fixed message. -/
def reset_counter (c : Int) : Int × Response :=
  let c : Int := 0
  (c, ⟨200, [("counter", .int c),
             ("message", .str "Counter reset to 0")]⟩)

/-- main.py lines 43-61, shutdown: POST /shutdown returns a fixed message
and does not touch the counter.  (The handler also starts a daemon thread
that sleeps 0.1 s and then calls `os._exit(0)`; that real-time side effect
is outside the state-to-response embedding.) -/
def shutdown (c : Int) : Int × Response :=
  (c, ⟨200, [("message", .str "Server shutting down")]⟩)

/-- The five routes registered on the FastAPI app in main.py. -/
inductive Route : Type where
  | root : Route
  | getCounter : Route
  | increment : Route
  | reset : Route
  | shutdownRoute : Route
deriving DecidableEq, Repr

/-- Dispatch a request on a route against the current counter state,
yielding the new counter state and the response. -/
def handle : Route → Int → Int × Response
  | .root, c => read_root c
  | .getCounter, c => get_counter c
  | .increment, c => increment_counter c
  | .reset, c => reset_counter c
  | .shutdownRoute, c => shutdown c

/-- Run a sequence of requests from a counter state, returning the final
counter state. -/
def runList (rs : List Route) (c : Int) : Int :=
  rs.foldl (fun s r => (handle r s).1) c

/-- main.py lines 10-15: the arguments passed to
`app.add_middleware(CORSMiddleware, ...)`. -/
structure CORSConfig where
  allow_origins : List String
  allow_methods : List String
  allow_headers : List String
deriving DecidableEq

/-- main.py lines 10-15: the CORS configuration of the app. -/
def corsConfig : CORSConfig :=
  { allow_origins := ["*"]
    allow_methods := ["*"]
    allow_headers := ["*"] }

/-- Modelled from the spec: the CORSMiddleware itself is library code not
in this repository.  Per the spec (section 6, "CORS: allow-origin `*`, all
methods, all headers permitted"), an allow-list entry `"*"` matches every
request value, and otherwise a value is permitted when listed. -/
def corsAllows (allowList : List String) (v : String) : Bool :=
  allowList.contains "*" || allowList.contains v

/-- Value of a decimal digit character. -/
def digitVal (c : Char) : Nat := c.toNat - 48

/-- Value of a list of decimal digit characters given least significant
first. -/
def valRev : List Char → Nat
  | [] => 0
  | c :: cs => digitVal c + 10 * valRev cs

/-- The trailing integer embedded in a string: the maximal run of decimal
digits at the end of the string, negated when immediately preceded by a
minus sign; `none` when the string does not end in a digit. -/
def extractTrailingInt (s : String) : Option Int :=
  if s.data.reverse.takeWhile Char.isDigit = [] then none
  else if (s.data.reverse.dropWhile Char.isDigit).head? = some '-' then
    some (-(valRev (s.data.reverse.takeWhile Char.isDigit) : Int))
  else some ((valRev (s.data.reverse.takeWhile Char.isDigit) : Int))

theorem digitChar_isDigit {d : Nat} (h : d < 10) : (digitChar d).isDigit = true := by
  interval_cases d <;> decide

theorem digitVal_digitChar {d : Nat} (h : d < 10) : digitVal (digitChar d) = d := by
  interval_cases d <;> decide

theorem toDigitsRev_all_digit : ∀ n, ∀ c ∈ toDigitsRev n, c.isDigit = true := by
  intro n
  induction n using Nat.strong_induction_on with
  | _ n ih =>
    match n with
    | 0 => intro c hc; simp [toDigitsRev] at hc
    | m + 1 =>
      intro c hc
      rw [toDigitsRev] at hc
      rcases List.mem_cons.mp hc with h | h
      · subst h; exact digitChar_isDigit (Nat.mod_lt _ (by omega))
      · exact ih ((m + 1) / 10) (Nat.div_lt_self (Nat.succ_pos m) (by omega)) c h

theorem valRev_toDigitsRev : ∀ n, valRev (toDigitsRev n) = n := by
  intro n
  induction n using Nat.strong_induction_on with
  | _ n ih =>
    match n with
    | 0 => rw [toDigitsRev]; rfl
    | m + 1 =>
      rw [toDigitsRev]
      have h1 : (m + 1) % 10 < 10 := Nat.mod_lt _ (by omega)
      have h2 := ih ((m + 1) / 10) (Nat.div_lt_self (Nat.succ_pos m) (by omega))
      simp only [valRev, digitVal_digitChar h1, h2]
      omega

theorem renderNat_all_digit (n : Nat) : ∀ c ∈ renderNat n, c.isDigit = true := by
  unfold renderNat
  split
  · intro c hc; simp at hc; subst hc; decide
  · intro c hc
    exact toDigitsRev_all_digit n c (List.mem_reverse.mp hc)

theorem renderNat_ne_nil (n : Nat) : renderNat n ≠ [] := by
  unfold renderNat
  split
  · simp
  · rename_i h
    match n, h with
    | m + 1, _ =>
      rw [toDigitsRev]
      simp

theorem valRev_reverse_renderNat (n : Nat) : valRev ((renderNat n).reverse) = n := by
  unfold renderNat
  split
  · rename_i h; subst h; rfl
  · rw [List.reverse_reverse]
    exact valRev_toDigitsRev n

theorem takeWhile_append_of_all {p : Char → Bool} :
    ∀ (a b : List Char), (∀ x ∈ a, p x = true) → (a ++ b).takeWhile p = a ++ b.takeWhile p := by
  intro a b ha
  induction a with
  | nil => simp
  | cons x xs ih =>
    have hx : p x = true := ha x (List.mem_cons_self x xs)
    simp only [List.cons_append, List.takeWhile_cons, hx, if_true]
    rw [ih (fun y hy => ha y (List.mem_cons_of_mem x hy))]

theorem dropWhile_append_of_all {p : Char → Bool} :
    ∀ (a b : List Char), (∀ x ∈ a, p x = true) → (a ++ b).dropWhile p = b.dropWhile p := by
  intro a b ha
  induction a with
  | nil => simp
  | cons x xs ih =>
    have hx : p x = true := ha x (List.mem_cons_self x xs)
    simp only [List.cons_append, List.dropWhile_cons, hx, if_true]
    exact ih (fun y hy => ha y (List.mem_cons_of_mem x hy))

theorem extractTrailingInt_append_renderInt (pre : String) (hd : Char) (tl : List Char)
    (hrev : pre.data.reverse = hd :: tl) (hdig : hd.isDigit = false) (hhy : hd ≠ '-')
    (k : Int) : extractTrailingInt (pre ++ renderInt k) = some k := by
  have hsd : (pre ++ renderInt k).data.reverse = (renderInt k).data.reverse ++ (hd :: tl) := by
    show (pre.data ++ (renderInt k).data).reverse = _
    rw [List.reverse_append, hrev]
  have hdm : Char.isDigit '-' = false := by decide
  by_cases hk : k < 0
  · have hall : ∀ x ∈ (renderNat k.natAbs).reverse, x.isDigit = true := fun x hx =>
      renderNat_all_digit _ x (List.mem_reverse.mp hx)
    have hRne : (renderNat k.natAbs).reverse ≠ [] := by
      simpa using renderNat_ne_nil k.natAbs
    have hr : (renderInt k).data = '-' :: renderNat k.natAbs := by
      show (if k < 0 then String.mk ('-' :: renderNat k.natAbs)
        else String.mk (renderNat k.toNat)).data = _
      rw [if_pos hk]
    have h1 : (pre ++ renderInt k).data.reverse
        = (renderNat k.natAbs).reverse ++ ('-' :: hd :: tl) := by
      rw [hsd, hr, List.reverse_cons, List.append_assoc, List.singleton_append]
    have htw : List.takeWhile Char.isDigit ('-' :: hd :: tl) = [] := by
      simp [List.takeWhile_cons, hdm]
    have hdw : List.dropWhile Char.isDigit ('-' :: hd :: tl) = '-' :: hd :: tl := by
      simp [List.dropWhile_cons, hdm]
    unfold extractTrailingInt
    rw [h1, takeWhile_append_of_all _ _ hall, dropWhile_append_of_all _ _ hall, htw, hdw,
      List.append_nil]
    rw [if_neg hRne, if_pos (by simp), valRev_reverse_renderNat]
    have hcast : -((k.natAbs : Nat) : Int) = k := by omega
    rw [hcast]
  · have hall : ∀ x ∈ (renderNat k.toNat).reverse, x.isDigit = true := fun x hx =>
      renderNat_all_digit _ x (List.mem_reverse.mp hx)
    have hRne : (renderNat k.toNat).reverse ≠ [] := by
      simpa using renderNat_ne_nil k.toNat
    have hr : (renderInt k).data = renderNat k.toNat := by
      show (if k < 0 then String.mk ('-' :: renderNat k.natAbs)
        else String.mk (renderNat k.toNat)).data = _
      rw [if_neg hk]
    have h1 : (pre ++ renderInt k).data.reverse
        = (renderNat k.toNat).reverse ++ (hd :: tl) := by
      rw [hsd, hr]
    have htw : List.takeWhile Char.isDigit (hd :: tl) = [] := by
      simp [List.takeWhile_cons, hdig]
    have hdw : List.dropWhile Char.isDigit (hd :: tl) = hd :: tl := by
      simp [List.dropWhile_cons, hdig]
    unfold extractTrailingInt
    rw [h1, takeWhile_append_of_all _ _ hall, dropWhile_append_of_all _ _ hall, htw, hdw,
      List.append_nil]
    rw [if_neg hRne, if_neg (by simpa using hhy), valRev_reverse_renderNat]
    have hcast : ((k.toNat : Nat) : Int) = k := by omega
    rw [hcast]

theorem runList_replicate_increment (n : Nat) (c : Int) :
    runList (List.replicate n .increment) c = c + n := by
  induction n generalizing c with
  | zero => simp [runList]
  | succ m ih =>
    rw [List.replicate_succ]
    show runList (List.replicate m .increment) (c + 1) = c + ((m : Int) + 1)
    rw [ih]
    ring

theorem handle_preserves_of_not_mut (r : Route) (c : Int)
    (h1 : r ≠ .increment) (h2 : r ≠ .reset) : (handle r c).1 = c := by
  cases r
  · rfl
  · rfl
  · exact absurd rfl h1
  · exact absurd rfl h2
  · rfl

theorem runList_no_mutation : ∀ (rs : List Route) (c : Int),
    Route.increment ∉ rs → Route.reset ∉ rs → runList rs c = c := by
  intro rs
  induction rs with
  | nil => intro c _ _; rfl
  | cons r rs ih =>
    intro c h1 h2
    rw [List.mem_cons] at h1 h2
    push_neg at h1 h2
    show runList rs ((handle r c).1) = c
    rw [handle_preserves_of_not_mut r c (Ne.symm h1.1) (Ne.symm h2.1)]
    exact ih c h1.2 h2.2

theorem handle_fst_nonneg (r : Route) (c : Int) (h : 0 ≤ c) : 0 ≤ (handle r c).1 := by
  cases r
  · exact h
  · exact h
  · show 0 ≤ c + 1
    omega
  · show (0 : Int) ≤ 0
    omega
  · exact h

theorem runList_nonneg : ∀ (rs : List Route) (c : Int), 0 ≤ c → 0 ≤ runList rs c := by
  intro rs
  induction rs with
  | nil => intro c h; exact h
  | cons r rs ih =>
    intro c h
    exact ih _ (handle_fst_nonneg r c h)

/-- The field names of the response body each route produces, in order
(main.py lines 20-61). -/
def routeShape : Route → List String
  | .root => ["message"]
  | .getCounter => ["counter"]
  | .increment => ["counter", "message"]
  | .reset => ["counter", "message"]
  | .shutdownRoute => ["message"]

/-- C1: for every n ≥ 1, performing POST /counter/increment n times
sequentially from the initial state leaves the counter equal to n, and a
subsequent GET /counter returns a body whose counter field is n. -/
theorem increment_n_times_from_initial (n : Nat) (h : 1 ≤ n) :
    runList (List.replicate n .increment) counter₀ = (n : Int) ∧
    (get_counter (runList (List.replicate n .increment) counter₀)).2.body
      = [("counter", .int (n : Int))] := by
  have hrun : runList (List.replicate n .increment) counter₀ = (n : Int) := by
    rw [runList_replicate_increment]
    simp [counter₀]
  exact ⟨hrun, by rw [hrun]; rfl⟩

/-- Witness for C1 at n = 3. -/
theorem increment_n_times_from_initial_witness :
    1 ≤ 3 ∧
    (runList (List.replicate 3 .increment) counter₀ = (3 : Int) ∧
      (get_counter (runList (List.replicate 3 .increment) counter₀)).2.body
        = [("counter", .int (3 : Int))]) :=
  ⟨by decide, increment_n_times_from_initial 3 (by decide)⟩

/-- C2: the counter state is 0 at process start, and GET /counter
performed after any sequence of requests containing no increment and no
reset returns the body with counter field 0. -/
theorem counter_zero_before_first_mutation (rs : List Route)
    (h₁ : Route.increment ∉ rs) (h₂ : Route.reset ∉ rs) :
    counter₀ = 0 ∧
    (get_counter (runList rs counter₀)).2.body = [("counter", .int 0)] := by
  have hid : runList rs counter₀ = counter₀ := runList_no_mutation rs counter₀ h₁ h₂
  exact ⟨rfl, by rw [hid]; rfl⟩

/-- Witness for C2 with no prior request at all. -/
theorem counter_zero_before_first_mutation_witness :
    Route.increment ∉ ([] : List Route) ∧ Route.reset ∉ ([] : List Route) ∧
    (counter₀ = 0 ∧
      (get_counter (runList [] counter₀)).2.body = [("counter", .int 0)]) :=
  ⟨by decide, by decide, counter_zero_before_first_mutation [] (by decide) (by decide)⟩

/-- C3: for every prior counter state, POST /counter/reset returns status
200 with body counter 0 and message "Counter reset to 0", sets the counter
to 0, and a subsequent GET /counter returns counter 0. -/
theorem reset_returns_zero (c : Int) :
    (reset_counter c).2
      = ⟨200, [("counter", .int 0), ("message", .str "Counter reset to 0")]⟩
    ∧ (reset_counter c).1 = 0
    ∧ (get_counter (reset_counter c).1).2.body = [("counter", .int 0)] :=
  ⟨rfl, rfl, rfl⟩

/-- C4: for every counter state, the body returned by POST
/counter/increment has a counter field equal to the trailing integer
embedded in its message field. -/
theorem increment_counter_matches_message (c : Int) :
    ∃ k : Int, ∃ m : String,
      (increment_counter c).2.body.field "counter" = some (.int k) ∧
      (increment_counter c).2.body.field "message" = some (.str m) ∧
      extractTrailingInt m = some k := by
  refine ⟨c + 1, "Counter incremented to " ++ renderInt (c + 1), rfl, rfl, ?_⟩
  exact extractTrailingInt_append_renderInt "Counter incremented to " ' '
    ("ot detnemercni retnuoC".data) (by decide) (by decide) (by decide) (c + 1)

/-- C5: GET / and GET /counter have no side effect on the counter
state. -/
theorem get_routes_no_side_effect (c : Int) :
    (handle .root c).1 = c ∧ (handle .getCounter c).1 = c :=
  ⟨rfl, rfl⟩

/-- C7: every one of the five routes succeeds unconditionally for every
counter state, returning HTTP 200 with its fixed body shape; the handlers
are total functions, so no defined route ever produces an error result. -/
theorem all_routes_return_200_fixed_shape (r : Route) (c : Int) :
    (handle r c).2.status = 200 ∧ (handle r c).2.body.keys = routeShape r := by
  cases r <;> exact ⟨rfl, rfl⟩

/-- C8: the CORS configuration of the app permits any origin, any method
and any header, on every route (the middleware is installed app-wide). -/
theorem cors_allows_any (r : Route) (origin httpMethod header : String) :
    corsAllows corsConfig.allow_origins origin = true ∧
    corsAllows corsConfig.allow_methods httpMethod = true ∧
    corsAllows corsConfig.allow_headers header = true :=
  ⟨rfl, rfl, rfl⟩

/-- C9: the counter is non-negative in every state reachable from the
initial state by any sequence of requests. -/
theorem counter_nonneg_invariant (rs : List Route) : 0 ≤ runList rs counter₀ :=
  runList_nonneg rs counter₀ (by decide)

/-- C10: POST /counter/reset is idempotent: from every counter state,
resetting twice yields the same final state and the same response as
resetting once. -/
theorem reset_idempotent (c : Int) :
    handle .reset ((handle .reset c).1) = handle .reset c :=
  rfl
